import Mathlib

set_option autoImplicit false

/-!
Verification of the VLC OpenGL offscreen filter pipeline
(`egl_pbuffer.c` and `video_output/opengl/filters.c`).

The first half models the multi-buffer ring and per-frame `Filter` driver of
`egl_pbuffer.c`: the three `pbo_picture_context` slots with their reference
counts and buffer mappings, the free-slot scan loop, and the GL call sequence
issued by one `Filter` invocation.  External collaborators (EGL make-current,
the interop upload, the chain draw, `picture_NewFromResource`) are modelled by
an outcome parameter selecting which of the code's failure returns is taken.

The second half models the filter chain of `filters.c`:
`vlc_gl_filters_Append`, `InitFramebufferOut`, `vlc_gl_filters_UpdatePicture`
and `vlc_gl_filters_Draw`, with the GL framebuffer-status check and the
pluggable module loader abstracted as parameters.
-/

namespace VlcGl

/-- VLC_SUCCESS from vlc_common.h. -/
def VLC_SUCCESS : Int := 0

/-- VLC_EGENERIC from vlc_common.h (a nonzero error code). -/
def VLC_EGENERIC : Int := -1

/-- BUFFER_COUNT (egl_pbuffer.c line 41). -/
def BUFFER_COUNT : Nat := 3

/-- struct pbo_picture_context (egl_pbuffer.c lines 43-50): the per-slot
frame context.  `buffer_mapping` is the pointer returned by MapBufferRange
(modelled as an abstract numeric identifier, `none` for NULL), `rc` the
reference count.  The shared lock and condition variable are represented by
the trace semantics below. -/
structure PboPictureContext where
  buffer_mapping : Option Nat
  rc : Int
deriving DecidableEq, Repr, Inhabited

/-- The mutable state of struct vlc_gl_pbo_filter (egl_pbuffer.c lines 52-76)
relevant to slot selection and frame lifecycle: the round-robin cursor
`current_flip` and the BUFFER_COUNT picture contexts (in array index order). -/
structure PboFilterState where
  current_flip : Nat
  picture_contexts : List PboPictureContext
deriving DecidableEq, Repr

/-- picture_context_copy (egl_pbuffer.c lines 257-266): increments the
reference count under the shared lock. -/
def picture_context_copy (c : PboPictureContext) : PboPictureContext :=
  { c with rc := c.rc + 1 }

/-- picture_context_destroy (egl_pbuffer.c lines 268-277): decrements the
reference count under the shared lock and signals the condition variable. -/
def picture_context_destroy (c : PboPictureContext) : PboPictureContext :=
  { c with rc := c.rc - 1 }

/-- The scan loop of Filter (egl_pbuffer.c lines 287-295): iterate the
contexts from index 0 upward and stop at the first one whose reference count
is 0 (`goto out_loop`); if none is found the thread waits on the condition
variable, which is modelled by returning `none`. -/
def scanFreeIndex : List PboPictureContext → Option Nat
  | [] => none
  | c :: rest =>
    if c.rc = 0 then some 0
    else Option.map (fun i => i + 1) (scanFreeIndex rest)

/-- The slot acquisition performed by Filter (egl_pbuffer.c lines 284-300),
as a function of the whole filter state.  The scan only reads the picture
contexts; in particular the `current_flip` cursor is not consulted. -/
def filterAcquire (s : PboFilterState) : Option Nat :=
  scanFreeIndex s.picture_contexts

theorem scanFreeIndex_eq_none_iff (l : List PboPictureContext) :
    scanFreeIndex l = none ↔ ∀ c ∈ l, c.rc ≠ 0 := by
  induction l with
  | nil => simp [scanFreeIndex]
  | cons c rest ih =>
    by_cases h : c.rc = 0
    · simp [scanFreeIndex, h]
    · simp only [scanFreeIndex, h, if_neg, List.mem_cons]
      constructor
      · intro hmap d hd
        rcases hd with hd | hd
        · subst hd; exact h
        · have : scanFreeIndex rest = none := by
            cases hrest : scanFreeIndex rest with
            | none => rfl
            | some i => rw [hrest] at hmap; simp [Option.map] at hmap
          exact (ih.mp this) d hd
      · intro hall
        have : scanFreeIndex rest = none :=
          ih.mpr (fun d hd => hall d (Or.inr hd))
        simp [this]

theorem scanFreeIndex_spec (l : List PboPictureContext) (i : Nat) :
    scanFreeIndex l = some i →
      (∃ c, l[i]? = some c ∧ c.rc = 0) ∧
      (∀ j, j < i → ∀ c, l[j]? = some c → c.rc ≠ 0) := by
  induction l generalizing i with
  | nil => intro h; simp [scanFreeIndex] at h
  | cons c rest ih =>
    intro h
    by_cases hc : c.rc = 0
    · simp [scanFreeIndex, hc] at h
      subst h
      refine ⟨⟨c, by simp, hc⟩, ?_⟩
      intro j hj
      omega
    · simp only [scanFreeIndex, hc, if_neg, if_false] at h
      cases hrest : scanFreeIndex rest with
      | none => rw [hrest] at h; simp [Option.map] at h
      | some i0 =>
        rw [hrest] at h
        simp [Option.map] at h
        subst h
        obtain ⟨⟨d, hd, hd0⟩, hmin⟩ := ih i0 hrest
        refine ⟨⟨d, by simpa using hd, hd0⟩, ?_⟩
        intro j hj e he
        cases j with
        | zero =>
          simp at he
          subst he; exact hc
        | succ j0 =>
          simp at he
          exact hmin j0 (by omega) e he

/-- GL buffer object names for the ring's pixel-transfer buffers, created by
GenBuffers in Open (egl_pbuffer.c line 499); GL names are abstract nonzero
integers, with 0 the default (unbind) name. -/
def pixelbuffers (i : Nat) : Nat := i + 1

/-- GL framebuffer object names for the ring's framebuffers, created by
GenFramebuffers in Open (egl_pbuffer.c line 500). -/
def framebuffers (i : Nat) : Nat := i + 1

/-- The GL calls issued by one Filter invocation that touch the selected
slot's pixel-transfer buffer and framebuffer (egl_pbuffer.c lines 312-339). -/
inductive GLCall where
  | bindPixelPackBuffer (buf : Nat)
  | bindFramebuffer (fb : Nat)
  | unmapPixelPackBuffer
  | filtersDraw
  | readPixels
  | mapBufferRange
deriving DecidableEq, Repr

/-- Outcome of the external collaborators called by one Filter invocation
(egl_pbuffer.c lines 302-358): which of the failure returns is taken, or
success. -/
inductive FilterOutcome where
  | makeCurrentFail
  | updatePictureFail
  | drawFail
  | newPictureFail
  | success
deriving DecidableEq, Repr

/-- Result of one non-blocking Filter invocation: the updated filter state,
the sequence of GL calls issued on the slot's buffers, and the mapping
pointer of the emitted output frame (`none` when the frame was dropped). -/
structure FilterResult where
  state : PboFilterState
  glTrace : List GLCall
  emitted : Option Nat
deriving DecidableEq, Repr

/-- Filter (egl_pbuffer.c lines 279-377).  `pixels` is the pointer returned
by MapBufferRange.  Returns `none` when all slots are busy and the thread
blocks in the scan loop (lines 287-295); otherwise returns the state after
the call.  Line-by-line:
- lines 284-300: acquire the first slot whose rc is 0, set `current_flip`;
- lines 302-303: on MakeCurrent failure return NULL;
- lines 305-310: on UpdatePicture failure return NULL;
- lines 312-315: bind the slot's pixel pack buffer and framebuffer, then
  unmap the previous mapping if the slot was mapped (the mapping pointer is
  not cleared);
- lines 317-322: run the chain draw; on failure return NULL;
- lines 328-342: read back pixels, map the buffer, unbind, advance the
  cursor;
- lines 344-358: on picture_NewFromResource failure return NULL;
- lines 362-364: record the mapping pointer, increment rc, emit. -/
def Filter (s : PboFilterState) (o : FilterOutcome) (pixels : Nat) :
    Option FilterResult :=
  match filterAcquire s with
  | none => none
  | some index =>
    match s.picture_contexts[index]? with
    | none => none
    | some context =>
      let s1 : PboFilterState := { s with current_flip := index }
      let glBind : List GLCall :=
        [GLCall.bindPixelPackBuffer (pixelbuffers index),
         GLCall.bindFramebuffer (framebuffers index)]
      let glUnmap : List GLCall :=
        if context.buffer_mapping = none then [] else [GLCall.unmapPixelPackBuffer]
      let glRead : List GLCall :=
        [GLCall.readPixels, GLCall.mapBufferRange,
         GLCall.bindFramebuffer 0, GLCall.bindPixelPackBuffer 0]
      match o with
      | FilterOutcome.makeCurrentFail => some ⟨s1, [], none⟩
      | FilterOutcome.updatePictureFail => some ⟨s1, [], none⟩
      | FilterOutcome.drawFail =>
        some ⟨s1, glBind ++ glUnmap ++ [GLCall.filtersDraw], none⟩
      | FilterOutcome.newPictureFail =>
        let s2 := { s1 with current_flip := (index + 1) % BUFFER_COUNT }
        some ⟨s2, glBind ++ glUnmap ++ [GLCall.filtersDraw] ++ glRead, none⟩
      | FilterOutcome.success =>
        let s2 := { s1 with current_flip := (index + 1) % BUFFER_COUNT }
        let context2 := { context with buffer_mapping := some pixels,
                                       rc := context.rc + 1 }
        some ⟨{ s2 with
                  picture_contexts := s2.picture_contexts.set index context2 },
              glBind ++ glUnmap ++ [GLCall.filtersDraw] ++ glRead,
              some pixels⟩

/-- One event of the pipeline's concurrent execution: a Filter call by the
filtering thread (with the outcome of its external collaborators and the
pointer returned by MapBufferRange), or a consumer duplicating or releasing
a held output frame whose context lives in slot `i`. -/
inductive TraceEv where
  | filterCall (o : FilterOutcome) (pixels : Nat)
  | copyFrame (i : Nat)
  | destroyFrame (i : Nat)
deriving DecidableEq, Repr

/-- Small-step semantics of the pipeline.  A `filterCall` is enabled only
when a slot is free (otherwise the filtering thread stays blocked in the
scan loop).  `copyFrame` and `destroyFrame` are enabled only on a slot whose
context is held by some consumer (rc at least 1): consumers duplicate and
release only frames they hold, which is the balanced-use caller contract. -/
def step (s : PboFilterState) : TraceEv → Option PboFilterState
  | TraceEv.filterCall o pixels => Option.map FilterResult.state (Filter s o pixels)
  | TraceEv.copyFrame i =>
    match s.picture_contexts[i]? with
    | none => none
    | some c =>
      if 1 ≤ c.rc then
        some { s with
                 picture_contexts :=
                   s.picture_contexts.set i (picture_context_copy c) }
      else none
  | TraceEv.destroyFrame i =>
    match s.picture_contexts[i]? with
    | none => none
    | some c =>
      if 1 ≤ c.rc then
        some { s with
                 picture_contexts :=
                   s.picture_contexts.set i (picture_context_destroy c) }
      else none

/-- Run a sequence of events; `none` when some event is not enabled. -/
def runTrace (s : PboFilterState) : List TraceEv → Option PboFilterState
  | [] => some s
  | e :: t =>
    match step s e with
    | none => none
    | some s2 => runTrace s2 t

/-- The ring state set up by Open (egl_pbuffer.c lines 442 and 503-521):
cursor 0, all mappings NULL, all reference counts 0. -/
def pboInit : PboFilterState :=
  ⟨0, List.replicate BUFFER_COUNT ⟨none, 0⟩⟩

/-- A state the pipeline can be in after some valid event sequence. -/
def Reachable (s : PboFilterState) : Prop :=
  ∃ t, runTrace pboInit t = some s

theorem Filter_inversion (s : PboFilterState) (o : FilterOutcome) (pixels : Nat)
    (r : FilterResult) (h : Filter s o pixels = some r) :
    ∃ index context,
      filterAcquire s = some index ∧
      s.picture_contexts[index]? = some context ∧
      ((r.state.picture_contexts = s.picture_contexts ∧
        o ≠ FilterOutcome.success) ∨
       (o = FilterOutcome.success ∧
        r.state.picture_contexts =
          s.picture_contexts.set index
            { context with buffer_mapping := some pixels,
                           rc := context.rc + 1 })) := by
  cases hacq : filterAcquire s with
  | none =>
    simp only [Filter, hacq] at h
    exact Option.noConfusion h
  | some index =>
    cases hget : s.picture_contexts[index]? with
    | none =>
      simp only [Filter, hacq, hget] at h
      exact Option.noConfusion h
    | some context =>
      simp only [Filter, hacq, hget] at h
      refine ⟨index, context, rfl, hget, ?_⟩
      cases o with
      | success =>
        right
        simp only [Option.some_inj] at h
        subst h
        exact ⟨rfl, rfl⟩
      | makeCurrentFail =>
        left
        simp only [Option.some_inj] at h
        subst h
        exact ⟨rfl, by simp⟩
      | updatePictureFail =>
        left
        simp only [Option.some_inj] at h
        subst h
        exact ⟨rfl, by simp⟩
      | drawFail =>
        left
        simp only [Option.some_inj] at h
        subst h
        exact ⟨rfl, by simp⟩
      | newPictureFail =>
        left
        simp only [Option.some_inj] at h
        subst h
        exact ⟨rfl, by simp⟩

theorem step_length (s s2 : PboFilterState) (e : TraceEv)
    (h : step s e = some s2) :
    s2.picture_contexts.length = s.picture_contexts.length := by
  cases e with
  | filterCall o pixels =>
    simp only [step] at h
    cases hF : Filter s o pixels with
    | none => rw [hF] at h; simp at h
    | some r =>
      rw [hF] at h
      simp only [Option.map] at h
      cases h
      
      obtain ⟨index, context, _, _, hcase⟩ := Filter_inversion s o pixels r hF
      rcases hcase with ⟨heq, _⟩ | ⟨_, heq⟩
      · rw [heq]
      · rw [heq, List.length_set]
  | copyFrame i =>
    simp only [step] at h
    cases hget : s.picture_contexts[i]? with
    | none => rw [hget] at h; simp at h
    | some c =>
      rw [hget] at h
      by_cases hrc : 1 ≤ c.rc
      · simp only [hrc, if_true] at h
        cases h
        simp [List.length_set]
      · simp [hrc] at h
  | destroyFrame i =>
    simp only [step] at h
    cases hget : s.picture_contexts[i]? with
    | none => rw [hget] at h; simp at h
    | some c =>
      rw [hget] at h
      by_cases hrc : 1 ≤ c.rc
      · simp only [hrc, if_true] at h
        cases h
        simp [List.length_set]
      · simp [hrc] at h

theorem runTrace_length (t : List TraceEv) (s0 s : PboFilterState)
    (h : runTrace s0 t = some s) :
    s.picture_contexts.length = s0.picture_contexts.length := by
  induction t generalizing s0 with
  | nil => simp [runTrace] at h; rw [h]
  | cons e t ih =>
    simp only [runTrace] at h
    cases hstep : step s0 e with
    | none => rw [hstep] at h; simp at h
    | some s1 =>
      rw [hstep] at h
      rw [ih s1 h, step_length s0 s1 e hstep]

theorem step_rc_nonneg (s s2 : PboFilterState) (e : TraceEv)
    (h : step s e = some s2) (h0 : ∀ c ∈ s.picture_contexts, 0 ≤ c.rc) :
    ∀ c ∈ s2.picture_contexts, 0 ≤ c.rc := by
  cases e with
  | filterCall o pixels =>
    simp only [step] at h
    cases hF : Filter s o pixels with
    | none => rw [hF] at h; simp at h
    | some r =>
      rw [hF] at h
      simp only [Option.map] at h
      cases h
      
      obtain ⟨index, context, _, hget, hcase⟩ := Filter_inversion s o pixels r hF
      rcases hcase with ⟨heq, _⟩ | ⟨_, heq⟩
      · rw [heq]; exact h0
      · rw [heq]
        intro c hc
        rcases List.mem_or_eq_of_mem_set hc with hc | hc
        · exact h0 c hc
        · subst hc
          have := h0 context (List.getElem?_mem hget)
          show 0 ≤ context.rc + 1
          omega
  | copyFrame i =>
    simp only [step] at h
    cases hget : s.picture_contexts[i]? with
    | none => rw [hget] at h; simp at h
    | some c =>
      rw [hget] at h
      by_cases hrc : 1 ≤ c.rc
      · simp only [hrc, if_true] at h
        cases h
        intro d hd
        rcases List.mem_or_eq_of_mem_set hd with hd | hd
        · exact h0 d hd
        · subst hd
          simp only [picture_context_copy]
          have := h0 c (List.getElem?_mem hget)
          omega
      · simp [hrc] at h
  | destroyFrame i =>
    simp only [step] at h
    cases hget : s.picture_contexts[i]? with
    | none => rw [hget] at h; simp at h
    | some c =>
      rw [hget] at h
      by_cases hrc : 1 ≤ c.rc
      · simp only [hrc, if_true] at h
        cases h
        intro d hd
        rcases List.mem_or_eq_of_mem_set hd with hd | hd
        · exact h0 d hd
        · subst hd
          simp only [picture_context_destroy]
          omega
      · simp [hrc] at h

theorem runTrace_rc_nonneg (t : List TraceEv) (s0 s : PboFilterState)
    (h : runTrace s0 t = some s) (h0 : ∀ c ∈ s0.picture_contexts, 0 ≤ c.rc) :
    ∀ c ∈ s.picture_contexts, 0 ≤ c.rc := by
  induction t generalizing s0 with
  | nil => simp [runTrace] at h; rw [← h]; exact h0
  | cons e t ih =>
    simp only [runTrace] at h
    cases hstep : step s0 e with
    | none => rw [hstep] at h; simp at h
    | some s1 =>
      rw [hstep] at h
      exact ih s1 h (step_rc_nonneg s0 s1 e hstep h0)

theorem reachable_length_rc (s : PboFilterState) (h : Reachable s) :
    s.picture_contexts.length = BUFFER_COUNT ∧
    ∀ c ∈ s.picture_contexts, 0 ≤ c.rc := by
  obtain ⟨t, ht⟩ := h
  constructor
  · rw [runTrace_length t pboInit s ht]
    simp [pboInit]
  · refine runTrace_rc_nonneg t pboInit s ht ?_
    intro c hc
    have := List.eq_of_mem_replicate hc
    subst this
    exact le_refl 0

theorem filterAcquire_of_free (s : PboFilterState) (i : Nat)
    (c : PboPictureContext) (hget : s.picture_contexts[i]? = some c)
    (hrc : c.rc = 0) :
    ∃ index context, filterAcquire s = some index ∧
      s.picture_contexts[index]? = some context ∧ context.rc = 0 := by
  cases hacq : filterAcquire s with
  | none =>
    exfalso
    exact (scanFreeIndex_eq_none_iff s.picture_contexts).mp hacq c
      (List.getElem?_mem hget) hrc
  | some index =>
    obtain ⟨⟨ctx, hctx, h0⟩, _⟩ := scanFreeIndex_spec s.picture_contexts index hacq
    exact ⟨index, ctx, rfl, hctx, h0⟩

theorem Filter_ne_none_of_free (s : PboFilterState) (i : Nat)
    (c : PboPictureContext) (hget : s.picture_contexts[i]? = some c)
    (hrc : c.rc = 0) (o : FilterOutcome) (pixels : Nat) :
    Filter s o pixels ≠ none := by
  obtain ⟨index, ctx, hacq, hctx, _⟩ := filterAcquire_of_free s i c hget hrc
  cases o <;> simp [Filter, hacq, hctx]

/-- The ring state after three successful Filter calls from the initial
state with no intervening release: every slot holds one outstanding frame. -/
def c1Blocked : PboFilterState :=
  ⟨0, [⟨some 11, 1⟩, ⟨some 12, 1⟩, ⟨some 13, 1⟩]⟩

/-- C1: whenever all 3 buffer slots have reference count > 0, a per-frame
Filter call does not select a slot (the filtering thread stays blocked in
the scan/condition-wait loop, modelled by `Filter` returning `none` and the
`filterCall` event being disabled); in every reachable state at most
BUFFER_COUNT = 3 slots hold an outstanding frame (rc > 0); as soon as some
slot's reference count is 0 the call proceeds with a slot; and concretely,
after 3 unreleased emissions the 4th submission blocks for every outcome,
while after a consumer release it proceeds. -/
theorem C1_backpressure_blocking :
    (∀ s : PboFilterState, (∀ c ∈ s.picture_contexts, 0 < c.rc) →
       ∀ o pixels, Filter s o pixels = none) ∧
    (∀ s : PboFilterState, Reachable s →
       s.picture_contexts.countP (fun c => decide (0 < c.rc)) ≤ BUFFER_COUNT) ∧
    (∀ (s : PboFilterState) (i : Nat) (c : PboPictureContext),
       s.picture_contexts[i]? = some c → c.rc = 0 →
       ∀ o pixels, Filter s o pixels ≠ none) ∧
    (runTrace pboInit
       [TraceEv.filterCall FilterOutcome.success 11,
        TraceEv.filterCall FilterOutcome.success 12,
        TraceEv.filterCall FilterOutcome.success 13] = some c1Blocked ∧
     (∀ o pixels, step c1Blocked (TraceEv.filterCall o pixels) = none) ∧
     runTrace pboInit
       [TraceEv.filterCall FilterOutcome.success 11,
        TraceEv.filterCall FilterOutcome.success 12,
        TraceEv.filterCall FilterOutcome.success 13,
        TraceEv.destroyFrame 0,
        TraceEv.filterCall FilterOutcome.success 14] ≠ none) := by
  refine ⟨?_, ?_, ?_, by decide, ?_, by decide⟩
  · intro s h o pixels
    have hacq : filterAcquire s = none := by
      refine (scanFreeIndex_eq_none_iff s.picture_contexts).mpr ?_
      intro c hc
      have := h c hc
      omega
    simp [Filter, hacq]
  · intro s hr
    have hlen := (reachable_length_rc s hr).1
    calc s.picture_contexts.countP (fun c => decide (0 < c.rc))
        ≤ s.picture_contexts.length := List.countP_le_length _
      _ = BUFFER_COUNT := hlen
  · exact Filter_ne_none_of_free
  · intro o pixels
    have hacq : filterAcquire c1Blocked = none := by decide
    simp [step, Filter, hacq]

/-- Witness for C1 at concrete inputs: a fully busy ring blocks, the
initial state satisfies the outstanding-frame bound, and a state with a
free slot proceeds. -/
theorem C1_backpressure_blocking_witness :
    Filter ⟨0, [⟨none, 1⟩, ⟨none, 1⟩, ⟨none, 1⟩]⟩ FilterOutcome.success 5 = none ∧
    pboInit.picture_contexts.countP (fun c => decide (0 < c.rc)) ≤ BUFFER_COUNT ∧
    Filter pboInit FilterOutcome.success 5 ≠ none :=
  ⟨C1_backpressure_blocking.1 ⟨0, [⟨none, 1⟩, ⟨none, 1⟩, ⟨none, 1⟩]⟩ (by decide)
     FilterOutcome.success 5,
   C1_backpressure_blocking.2.1 pboInit ⟨[], rfl⟩,
   C1_backpressure_blocking.2.2.1 pboInit 0 ⟨none, 0⟩ (by decide) rfl
     FilterOutcome.success 5⟩

/-- The result of one successful Filter call from the initial state with
mapping pointer 21. -/
def c2Result : FilterResult :=
  ⟨⟨1, [⟨some 21, 1⟩, ⟨none, 0⟩, ⟨none, 0⟩]⟩,
   [GLCall.bindPixelPackBuffer 1, GLCall.bindFramebuffer 1, GLCall.filtersDraw,
    GLCall.readPixels, GLCall.mapBufferRange, GLCall.bindFramebuffer 0,
    GLCall.bindPixelPackBuffer 0],
   some 21⟩

/-- C2: emitting a new output frame increments the selected slot's
reference count from 0 to exactly 1 (the acquisition scan guarantees the
selected context had rc 0, and line 363 adds 1); picture_context_copy adds
exactly 1; picture_context_destroy subtracts exactly 1; under balanced
duplication/release — every copy and destroy is performed on a held frame
(rc at least 1), as encoded in the step relation — no reachable state has a
negative count; and a slot whose count is 0 makes the next acquisition scan
succeed. -/
theorem C2_refcount_lifecycle :
    (∀ (s : PboFilterState) (pixels : Nat) (r : FilterResult)
       (index : Nat) (context : PboPictureContext),
       Filter s FilterOutcome.success pixels = some r →
       filterAcquire s = some index →
       s.picture_contexts[index]? = some context →
       context.rc = 0 ∧
       r.state.picture_contexts[index]? =
         some { buffer_mapping := some pixels, rc := context.rc + 1 } ∧
       context.rc + 1 = 1) ∧
    (∀ c, (picture_context_copy c).rc = c.rc + 1) ∧
    (∀ c, (picture_context_destroy c).rc = c.rc - 1) ∧
    (∀ s : PboFilterState, Reachable s → ∀ c ∈ s.picture_contexts, 0 ≤ c.rc) ∧
    (∀ (s : PboFilterState) (i : Nat) (c : PboPictureContext),
       s.picture_contexts[i]? = some c → c.rc = 0 →
       filterAcquire s ≠ none) := by
  refine ⟨?_, fun c => rfl, fun c => rfl, ?_, ?_⟩
  · intro s pixels r index context hF hacq hget
    obtain ⟨⟨c0, hc0, hrc0⟩, _⟩ := scanFreeIndex_spec s.picture_contexts index hacq
    rw [hget] at hc0
    cases hc0
    obtain ⟨index2, context2, hacq2, hget2, hcase⟩ :=
      Filter_inversion s FilterOutcome.success pixels r hF
    rw [hacq] at hacq2
    cases hacq2
    rw [hget] at hget2
    cases hget2
    rcases hcase with ⟨_, hne⟩ | ⟨_, heq⟩
    · exact absurd rfl hne
    · have hlt : index < s.picture_contexts.length :=
        (List.getElem?_eq_some.mp hget).1
      refine ⟨hrc0, ?_, by omega⟩
      rw [heq, List.getElem?_set_self (by simpa using hlt)]
  · intro s hr
    exact (reachable_length_rc s hr).2
  · intro s i c hget hrc
    obtain ⟨index, ctx, hacq, _, _⟩ := filterAcquire_of_free s i c hget hrc
    rw [hacq]
    simp

/-- Witness for C2 at concrete inputs: one successful Filter call from the
initial state takes slot 0 from rc 0 to rc 1, and a free slot at index 0
makes the scan succeed. -/
theorem C2_refcount_lifecycle_witness :
    ((⟨none, 0⟩ : PboPictureContext).rc = 0 ∧
     c2Result.state.picture_contexts[0]? =
       some { buffer_mapping := some 21,
              rc := (⟨none, 0⟩ : PboPictureContext).rc + 1 } ∧
     (⟨none, 0⟩ : PboPictureContext).rc + 1 = 1) ∧
    filterAcquire pboInit ≠ none :=
  ⟨C2_refcount_lifecycle.1 pboInit 21 c2Result 0 ⟨none, 0⟩ (by decide) rfl
     (by decide),
   C2_refcount_lifecycle.2.2.2.2 pboInit 0 ⟨none, 0⟩ (by decide) rfl⟩

/-- C3: every successful slot acquisition in Filter selects the lowest
index in 0..BUFFER_COUNT-1 whose reference count is exactly 0 at scan time;
a slot with nonzero (hence positive, in reachable states) count is never
selected; and the round-robin cursor current_flip has no influence on the
selection. -/
theorem C3_lowest_free_index :
    (∀ (s : PboFilterState) (i : Nat),
       filterAcquire s = some i →
       (∃ c, s.picture_contexts[i]? = some c ∧ c.rc = 0) ∧
       (∀ j, j < i → ∀ c, s.picture_contexts[j]? = some c → c.rc ≠ 0)) ∧
    (∀ (s : PboFilterState) (flip : Nat),
       filterAcquire { s with current_flip := flip } = filterAcquire s) :=
  ⟨fun s i h => scanFreeIndex_spec s.picture_contexts i h, fun _ _ => rfl⟩

/-- Witness for C3 at a concrete input: with slot 0 busy and slots 1 and 2
free, the scan selects index 1, and indices below 1 are busy. -/
theorem C3_lowest_free_index_witness :
    (∃ c, (PboFilterState.mk 2 [⟨none, 2⟩, ⟨none, 0⟩, ⟨none, 0⟩]).picture_contexts[1]? =
       some c ∧ c.rc = 0) ∧
    (∀ j, j < 1 → ∀ c,
       (PboFilterState.mk 2 [⟨none, 2⟩, ⟨none, 0⟩, ⟨none, 0⟩]).picture_contexts[j]? =
         some c → c.rc ≠ 0) :=
  C3_lowest_free_index.1 ⟨2, [⟨none, 2⟩, ⟨none, 0⟩, ⟨none, 0⟩]⟩ 1 (by decide)

/-- The slot index acquired by the Filter call at position k of the trace,
computed by replaying the prefix before k from the initial state; `none`
when position k is not a Filter call or the prefix is invalid. -/
def acquiredSlotAt (t : List TraceEv) (k : Nat) : Option Nat :=
  match t[k]? with
  | some (TraceEv.filterCall _ _) =>
    match runTrace pboInit (t.take k) with
    | some s => filterAcquire s
    | none => none
  | _ => none

/-- Whether the event at position k of the trace is a successful Filter
call that acquires slot i and records a new mapping pointer for it
(egl_pbuffer.c line 362). -/
def recordsMappingAt (t : List TraceEv) (k : Nat) (i : Nat) : Bool :=
  match t[k]? with
  | some (TraceEv.filterCall FilterOutcome.success _) =>
    acquiredSlotAt t k == some i
  | _ => false

/-- Claim C4 as stated: after any sequence of Filter calls (successful or
failing) and consumer events, a slot's mapping pointer is non-null only
between a readback that records it and the next reuse (acquisition) of that
slot — whenever the final state holds a non-null mapping pointer for slot
i, some position k is a recording readback on slot i and no later position
acquires slot i again. -/
def mappingOnlyBetweenReadbackAndReuse (t : List TraceEv) : Bool :=
  match runTrace pboInit t with
  | none => true
  | some s =>
    (List.range BUFFER_COUNT).all fun i =>
      match (s.picture_contexts.getD i default).buffer_mapping with
      | none => true
      | some _ =>
        (List.range t.length).any fun k =>
          recordsMappingAt t k i &&
          ((List.range t.length).all fun m =>
            !(decide (k < m) && (acquiredSlotAt t m == some i)))

/-- A valid event sequence violating claim C4: a successful Filter call
maps slot 0, the consumer releases the frame, and a second Filter call
reuses slot 0 but fails in the chain draw; slot 0's mapping pointer is
still non-null although the recording readback has been followed by a
reuse of the slot. -/
def c4Trace : List TraceEv :=
  [TraceEv.filterCall FilterOutcome.success 7,
   TraceEv.destroyFrame 0,
   TraceEv.filterCall FilterOutcome.drawFail 8]

/-- C4 counterexample: the claim that a slot's mapping pointer is non-null
only between a readback and the next reuse of the slot is false on the
concrete trace `c4Trace`, which is a valid execution. -/
theorem C4_counterexample :
    runTrace pboInit c4Trace ≠ none ∧
    mappingOnlyBetweenReadbackAndReuse c4Trace = false := by decide

theorem step_mapping_change (s s2 : PboFilterState) (e : TraceEv)
    (h : step s e = some s2) (i : Nat) (c c2 : PboPictureContext)
    (hget : s.picture_contexts[i]? = some c)
    (hget2 : s2.picture_contexts[i]? = some c2) :
    c2.buffer_mapping = c.buffer_mapping ∨
    ∃ pixels, e = TraceEv.filterCall FilterOutcome.success pixels ∧
      filterAcquire s = some i ∧ c.rc = 0 ∧
      c2.buffer_mapping = some pixels := by
  cases e with
  | filterCall o pixels =>
    simp only [step] at h
    cases hF : Filter s o pixels with
    | none => rw [hF] at h; simp at h
    | some r =>
      rw [hF] at h
      simp only [Option.map] at h
      cases h
      obtain ⟨index, context, hacq, hctx, hcase⟩ :=
        Filter_inversion s o pixels r hF
      rcases hcase with ⟨heq, _⟩ | ⟨ho, heq⟩
      · left
        rw [heq, hget] at hget2
        cases hget2
        rfl
      · subst ho
        by_cases hi : i = index
        · subst hi
          rw [hget] at hctx
          cases hctx
          right
          have hlt : i < s.picture_contexts.length :=
            (List.getElem?_eq_some.mp hget).1
          rw [heq, List.getElem?_set_self (by simpa using hlt)] at hget2
          cases hget2
          obtain ⟨⟨d, hd, hd0⟩, _⟩ := scanFreeIndex_spec s.picture_contexts i hacq
          rw [hget] at hd
          cases hd
          exact ⟨pixels, rfl, hacq, hd0, rfl⟩
        · left
          rw [heq, List.getElem?_set_ne (fun hne => hi hne.symm)] at hget2
          rw [hget] at hget2
          cases hget2
          rfl
  | copyFrame i0 =>
    simp only [step] at h
    cases hg0 : s.picture_contexts[i0]? with
    | none => rw [hg0] at h; simp at h
    | some c0 =>
      rw [hg0] at h
      by_cases hrc : 1 ≤ c0.rc
      · simp only [hrc, if_true] at h
        cases h
        left
        by_cases hi : i = i0
        · subst hi
          rw [hget] at hg0
          cases hg0
          have hlt : i < s.picture_contexts.length :=
            (List.getElem?_eq_some.mp hget).1
          rw [List.getElem?_set_self (by simpa using hlt)] at hget2
          cases hget2
          rfl
        · rw [List.getElem?_set_ne (fun hne => hi hne.symm), hget] at hget2
          cases hget2
          rfl
      · simp [hrc] at h
  | destroyFrame i0 =>
    simp only [step] at h
    cases hg0 : s.picture_contexts[i0]? with
    | none => rw [hg0] at h; simp at h
    | some c0 =>
      rw [hg0] at h
      by_cases hrc : 1 ≤ c0.rc
      · simp only [hrc, if_true] at h
        cases h
        left
        by_cases hi : i = i0
        · subst hi
          rw [hget] at hg0
          cases hg0
          have hlt : i < s.picture_contexts.length :=
            (List.getElem?_eq_some.mp hget).1
          rw [List.getElem?_set_self (by simpa using hlt)] at hget2
          cases hget2
          rfl
        · rw [List.getElem?_set_ne (fun hne => hi hne.symm), hget] at hget2
          cases hget2
          rfl
      · simp [hrc] at h

/-- C4 (amended): every slot's mapping pointer starts null; it becomes
non-null exactly when a successful Filter call acquires the slot (whose
reference count was then 0) and records the MapBufferRange pointer; and no
event ever resets it to null — so, contrary to the claim, the pointer
persists past the next reuse of the slot, for instance across a failing
Filter call that reuses it, until the next successful readback overwrites
it. -/
theorem C4_mapping_recorded_never_cleared :
    (∀ c ∈ pboInit.picture_contexts, c.buffer_mapping = none) ∧
    (∀ (s s2 : PboFilterState) (e : TraceEv), step s e = some s2 →
       ∀ (i : Nat) (c c2 : PboPictureContext),
         s.picture_contexts[i]? = some c →
         s2.picture_contexts[i]? = some c2 →
         c2.buffer_mapping ≠ c.buffer_mapping →
         ∃ pixels, e = TraceEv.filterCall FilterOutcome.success pixels ∧
           filterAcquire s = some i ∧ c.rc = 0 ∧
           c2.buffer_mapping = some pixels) ∧
    (∀ (s s2 : PboFilterState) (e : TraceEv), step s e = some s2 →
       ∀ (i : Nat) (c c2 : PboPictureContext),
         s.picture_contexts[i]? = some c →
         s2.picture_contexts[i]? = some c2 →
         c.buffer_mapping ≠ none → c2.buffer_mapping ≠ none) := by
  refine ⟨?_, ?_, ?_⟩
  · intro c hc
    have := List.eq_of_mem_replicate hc
    subst this
    rfl
  · intro s s2 e h i c c2 hget hget2 hchange
    rcases step_mapping_change s s2 e h i c c2 hget hget2 with heq | hrec
    · exact absurd heq hchange
    · exact hrec
  · intro s s2 e h i c c2 hget hget2 hnn
    rcases step_mapping_change s s2 e h i c c2 hget hget2 with heq | hrec
    · rw [heq]; exact hnn
    · obtain ⟨pixels, _, _, _, hmap⟩ := hrec
      rw [hmap]
      simp

/-- Witness for C4 (amended) at a concrete step: the successful Filter
call from the initial state records mapping pointer 7 in slot 0. -/
theorem C4_mapping_recorded_never_cleared_witness :
    ∃ pixels, TraceEv.filterCall FilterOutcome.success 7 =
        TraceEv.filterCall FilterOutcome.success pixels ∧
      filterAcquire pboInit = some 0 ∧
      (⟨none, 0⟩ : PboPictureContext).rc = 0 ∧
      (⟨some 7, 1⟩ : PboPictureContext).buffer_mapping = some pixels :=
  C4_mapping_recorded_never_cleared.2.1 pboInit
    ⟨1, [⟨some 7, 1⟩, ⟨none, 0⟩, ⟨none, 0⟩]⟩
    (TraceEv.filterCall FilterOutcome.success 7) (by decide) 0
    ⟨none, 0⟩ ⟨some 7, 1⟩ (by decide) (by decide) (by decide)

/-- Whether, in a GL call sequence, the UnmapBuffer of the pixel pack
buffer occurs strictly before the first binding of slot `slot`'s
pixel-transfer buffer — the ordering asserted by claim C5. -/
def unmapsBeforeBindingSlotBuffer (gl : List GLCall) (slot : Nat) : Bool :=
  match gl.findIdx? (fun ev => ev == GLCall.unmapPixelPackBuffer),
        gl.findIdx? (fun ev => ev == GLCall.bindPixelPackBuffer (pixelbuffers slot)) with
  | some u, some b => decide (u < b)
  | _, _ => false

/-- The ring state at the end of `c4Trace`: slot 0 is free again (rc 0)
but still mapped from the first readback.  Reused as the concrete start
state for the C5 counterexample. -/
def c5State : PboFilterState :=
  ⟨0, [⟨some 7, 0⟩, ⟨none, 0⟩, ⟨none, 0⟩]⟩

/-- The result of a successful Filter call from `c5State`: the previously
mapped slot 0 is selected again. -/
def c5Result : FilterResult :=
  ⟨⟨1, [⟨some 9, 1⟩, ⟨none, 0⟩, ⟨none, 0⟩]⟩,
   [GLCall.bindPixelPackBuffer 1, GLCall.bindFramebuffer 1,
    GLCall.unmapPixelPackBuffer, GLCall.filtersDraw, GLCall.readPixels,
    GLCall.mapBufferRange, GLCall.bindFramebuffer 0,
    GLCall.bindPixelPackBuffer 0],
   some 9⟩

/-- C5 counterexample: from the reachable state `c5State` in which the
selected slot 0 has a non-null mapping pointer, the Filter call issues
BindBuffer(GL_PIXEL_PACK_BUFFER, pixelbuffers[0]) BEFORE
UnmapBuffer(GL_PIXEL_PACK_BUFFER) (egl_pbuffer.c lines 312-315), so the
claim that the mapping is unmapped before the slot's pixel-transfer buffer
is re-bound is false at this input. -/
theorem C5_counterexample :
    runTrace pboInit c4Trace = some c5State ∧
    Filter c5State FilterOutcome.success 9 = some c5Result ∧
    unmapsBeforeBindingSlotBuffer c5Result.glTrace 0 = false := by decide

/-- C5 (amended): whenever the Filter call selects a slot whose mapping
pointer is non-null and reaches the binding phase (neither MakeCurrent nor
UpdatePicture failed), it re-binds the slot's pixel-transfer buffer and
framebuffer first and unmaps the stale mapping immediately afterwards,
before the chain draw and the pixel readback (the new write into the
buffer) — the unmap follows the re-bind rather than preceding it. -/
theorem C5_unmap_after_bind_before_write :
    ∀ (s : PboFilterState) (o : FilterOutcome) (pixels : Nat)
      (r : FilterResult) (index : Nat) (context : PboPictureContext),
      Filter s o pixels = some r →
      filterAcquire s = some index →
      s.picture_contexts[index]? = some context →
      context.buffer_mapping ≠ none →
      o ≠ FilterOutcome.makeCurrentFail →
      o ≠ FilterOutcome.updatePictureFail →
      ∃ rest, r.glTrace =
        GLCall.bindPixelPackBuffer (pixelbuffers index) ::
        GLCall.bindFramebuffer (framebuffers index) ::
        GLCall.unmapPixelPackBuffer :: GLCall.filtersDraw :: rest := by
  intro s o pixels r index context hF hacq hget hmap h1 h2
  cases o with
  | makeCurrentFail => exact absurd rfl h1
  | updatePictureFail => exact absurd rfl h2
  | drawFail =>
    simp only [Filter, hacq, hget] at hF
    cases hF
    refine ⟨[], ?_⟩
    simp [if_neg hmap]
  | newPictureFail =>
    simp only [Filter, hacq, hget] at hF
    cases hF
    refine ⟨[GLCall.readPixels, GLCall.mapBufferRange, GLCall.bindFramebuffer 0,
             GLCall.bindPixelPackBuffer 0], ?_⟩
    simp [if_neg hmap]
  | success =>
    simp only [Filter, hacq, hget] at hF
    cases hF
    refine ⟨[GLCall.readPixels, GLCall.mapBufferRange, GLCall.bindFramebuffer 0,
             GLCall.bindPixelPackBuffer 0], ?_⟩
    simp [if_neg hmap]

/-- Witness for C5 (amended) at a concrete input: the successful Filter
call from `c5State` re-binds slot 0's buffers and then unmaps before the
draw and readback. -/
theorem C5_unmap_after_bind_before_write_witness :
    ∃ rest, c5Result.glTrace =
      GLCall.bindPixelPackBuffer (pixelbuffers 0) ::
      GLCall.bindFramebuffer (framebuffers 0) ::
      GLCall.unmapPixelPackBuffer :: GLCall.filtersDraw :: rest :=
  C5_unmap_after_bind_before_write c5State FilterOutcome.success 9 c5Result 0
    ⟨some 7, 0⟩ (by decide) (by decide) (by decide) (by decide) (by decide)
    (by decide)

/-- A texture size (struct vlc_gl_tex_size). -/
structure TexSize where
  width : Nat
  height : Nat
deriving DecidableEq, Repr, Inhabited

/-- The per-stage fields of struct vlc_gl_filter_priv relevant to chain
orchestration: the declared output size, whether the stage owns an output
framebuffer, the GL names of its output texture and framebuffer, and the
dimensions the output texture was allocated with by InitFramebufferOut
(the TexImage2D arguments, filters.c lines 55-56). -/
structure FilterPriv where
  size_out : TexSize
  has_framebuffer_out : Bool
  texture_out : Nat
  framebuffer_out : Nat
  fbTexWidth : Nat
  fbTexHeight : Nat
deriving DecidableEq, Repr, Inhabited

/-- The chain state of struct vlc_gl_filters: the interop's visible input
size (read by Append for the first stage, filters.c lines 97-98) and the
ordered stage list. -/
structure GLFilters where
  interopSize : TexSize
  list : List FilterPriv
deriving DecidableEq, Repr

/-- vlc_gl_filters_Init (filters.c lines 34-43): the chain starts empty. -/
def vlc_gl_filters_Init (interopSize : TexSize) : GLFilters :=
  ⟨interopSize, []⟩

/-- Outcomes of the external collaborators of one vlc_gl_filters_Append
call: whether sampler creation succeeds (vlc_gl_sampler_NewFromInterop or
vlc_gl_sampler_NewDirect, lines 99 and 110-111), the result of
vlc_gl_filter_LoadModule (`none` for failure, otherwise the stage's
declared output size after its Open — LoadModule receives size_out preset
to the input size and may change it, lines 120-125), whether
CheckFramebufferStatus reports GL_FRAMEBUFFER_COMPLETE inside
InitFramebufferOut (line 72), and the fresh GL names produced by
GenTextures and GenFramebuffers there (lines 53 and 65). -/
structure AppendEnv where
  samplerOk : Bool
  loadModule : Option TexSize
  fbStatusOk : Bool
  newTexture : Nat
  newFramebuffer : Nat
deriving DecidableEq, Repr

/-- Modelled from the spec: vlc_gl_filter_New (filter.c, not among the
provided sources) creates a fresh stage; per the spec's data model a newly
created Filter Stage has no owned Render Target ("optional — absent for
the terminal stage"), so has_framebuffer_out starts false and the output
handles are the null GL name 0. -/
def vlc_gl_filter_New : FilterPriv :=
  ⟨⟨0, 0⟩, false, 0, 0, 0, 0⟩

/-- InitFramebufferOut (filters.c lines 45-78): allocates an output
texture with the stage's own size_out dimensions and a framebuffer,
attaches them, sets has_framebuffer_out = true (line 70), and only then
checks the framebuffer status, returning VLC_EGENERIC when it is not
complete — the fields just set are not rolled back in that case.  The
entry assertion that size_out is positive (line 48) is a precondition not
needed by any claim and not modelled. -/
def InitFramebufferOut (priv : FilterPriv) (env : AppendEnv) :
    FilterPriv × Int :=
  let priv1 : FilterPriv :=
    { priv with
        texture_out := env.newTexture,
        fbTexWidth := priv.size_out.width,
        fbTexHeight := priv.size_out.height,
        framebuffer_out := env.newFramebuffer,
        has_framebuffer_out := true }
  if env.fbStatusOk then (priv1, VLC_SUCCESS) else (priv1, VLC_EGENERIC)

/-- vlc_gl_filters_Append (filters.c lines 80-151).  Returns the updated
chain and whether a stage was appended (a non-NULL return).  The input
size for the new stage (the interop size for the first stage, otherwise
the previous stage's size_out) is consumed by the abstracted sampler
construction and LoadModule, whose joint outcome `env` provides.  Failure
paths: sampler creation failure (lines 114-118) and module load failure
(lines 126-132) delete the new filter and leave the chain as it was;
InitFramebufferOut failure (lines 140-145) deletes the new filter but the
previously-last stage has already been mutated in place.  The assertion
that the previous last stage has no framebuffer yet (line 137) holds on
every chain built by successful appends. -/
def vlc_gl_filters_Append (filters : GLFilters) (env : AppendEnv) :
    GLFilters × Bool :=
  match filters.list.getLast? with
  | none =>
    if env.samplerOk then
      match env.loadModule with
      | none => (filters, false)
      | some sizeOut =>
        ({ filters with
             list := filters.list ++
               [{ vlc_gl_filter_New with size_out := sizeOut }] }, true)
    else (filters, false)
  | some prev =>
    if env.samplerOk then
      match env.loadModule with
      | none => (filters, false)
      | some sizeOut =>
        let priv := { vlc_gl_filter_New with size_out := sizeOut }
        let res := InitFramebufferOut prev env
        let listUpd := filters.list.dropLast ++ [res.1]
        if res.2 = VLC_SUCCESS then
          ({ filters with list := listUpd ++ [priv] }, true)
        else
          ({ filters with list := listUpd }, false)
    else (filters, false)

/-- Appending a sequence of stages, all successfully; `none` as soon as an
append fails (configuration then aborts, as in LoadFilters). -/
def appendAll (filters : GLFilters) : List AppendEnv → Option GLFilters
  | [] => some filters
  | env :: rest =>
    match vlc_gl_filters_Append filters env with
    | (f2, true) => appendAll f2 rest
    | (_, false) => none

theorem InitFramebufferOut_fst (priv : FilterPriv) (env : AppendEnv) :
    (InitFramebufferOut priv env).1 =
      { priv with
          texture_out := env.newTexture,
          fbTexWidth := priv.size_out.width,
          fbTexHeight := priv.size_out.height,
          framebuffer_out := env.newFramebuffer,
          has_framebuffer_out := true } := by
  unfold InitFramebufferOut
  by_cases h : env.fbStatusOk <;> simp [h]

theorem InitFramebufferOut_snd (priv : FilterPriv) (env : AppendEnv) :
    (InitFramebufferOut priv env).2 =
      if env.fbStatusOk then VLC_SUCCESS else VLC_EGENERIC := by
  unfold InitFramebufferOut
  by_cases h : env.fbStatusOk <;> simp [h]

theorem Append_success_inversion (filters : GLFilters) (env : AppendEnv)
    (f2 : GLFilters) (h : vlc_gl_filters_Append filters env = (f2, true)) :
    ∃ sizeOut, env.samplerOk = true ∧ env.loadModule = some sizeOut ∧
      ((filters.list.getLast? = none ∧
        f2 = { filters with
                 list := filters.list ++
                   [{ vlc_gl_filter_New with size_out := sizeOut }] }) ∨
       (∃ prev, filters.list.getLast? = some prev ∧ env.fbStatusOk = true ∧
        f2 = { filters with
                 list := filters.list.dropLast ++
                   [(InitFramebufferOut prev env).1] ++
                   [{ vlc_gl_filter_New with size_out := sizeOut }] })) := by
  obtain ⟨samplerOk, loadModule, fbStatusOk, newTexture, newFramebuffer⟩ := env
  cases hlast : filters.list.getLast? with
  | none =>
    cases samplerOk with
    | false => simp [vlc_gl_filters_Append, hlast] at h
    | true =>
      cases loadModule with
      | none => simp [vlc_gl_filters_Append, hlast] at h
      | some sizeOut =>
        refine ⟨sizeOut, rfl, rfl, Or.inl ⟨rfl, ?_⟩⟩
        have h2 := congrArg Prod.fst h
        simp only [vlc_gl_filters_Append, hlast] at h2
        simp at h2
        exact h2.symm
  | some prev =>
    cases samplerOk with
    | false => simp [vlc_gl_filters_Append, hlast] at h
    | true =>
      cases loadModule with
      | none => simp [vlc_gl_filters_Append, hlast] at h
      | some sizeOut =>
        cases fbStatusOk with
        | false =>
          simp [vlc_gl_filters_Append, hlast, InitFramebufferOut_snd,
            VLC_SUCCESS, VLC_EGENERIC] at h
        | true =>
          refine ⟨sizeOut, rfl, rfl, Or.inr ⟨prev, rfl, rfl, ?_⟩⟩
          have h2 := congrArg Prod.fst h
          simp only [vlc_gl_filters_Append, hlast, InitFramebufferOut_snd] at h2
          simp at h2
          rw [← h2]
          simp [List.append_assoc]

theorem Append_failure_inversion (filters : GLFilters) (env : AppendEnv)
    (f2 : GLFilters) (h : vlc_gl_filters_Append filters env = (f2, false)) :
    (f2 = filters ∧ (env.samplerOk = false ∨ env.loadModule = none)) ∨
    (∃ prev sizeOut, filters.list.getLast? = some prev ∧
      env.samplerOk = true ∧ env.loadModule = some sizeOut ∧
      env.fbStatusOk = false ∧
      f2 = { filters with
               list := filters.list.dropLast ++
                 [(InitFramebufferOut prev env).1] }) := by
  obtain ⟨samplerOk, loadModule, fbStatusOk, newTexture, newFramebuffer⟩ := env
  cases hlast : filters.list.getLast? with
  | none =>
    cases samplerOk with
    | false =>
      simp only [vlc_gl_filters_Append, hlast] at h
      simp at h
      exact Or.inl ⟨h.symm, Or.inl rfl⟩
    | true =>
      cases loadModule with
      | none =>
        simp only [vlc_gl_filters_Append, hlast] at h
        simp at h
        exact Or.inl ⟨h.symm, Or.inr rfl⟩
      | some sizeOut => simp [vlc_gl_filters_Append, hlast] at h
  | some prev =>
    cases samplerOk with
    | false =>
      simp only [vlc_gl_filters_Append, hlast] at h
      simp at h
      exact Or.inl ⟨h.symm, Or.inl rfl⟩
    | true =>
      cases loadModule with
      | none =>
        simp only [vlc_gl_filters_Append, hlast] at h
        simp at h
        exact Or.inl ⟨h.symm, Or.inr rfl⟩
      | some sizeOut =>
        cases fbStatusOk with
        | true =>
          simp [vlc_gl_filters_Append, hlast, InitFramebufferOut_snd] at h
        | false =>
          refine Or.inr ⟨prev, sizeOut, rfl, rfl, rfl, rfl, ?_⟩
          have h2 := congrArg Prod.fst h
          simp only [vlc_gl_filters_Append, hlast, InitFramebufferOut_snd] at h2
          simp [VLC_SUCCESS, VLC_EGENERIC] at h2
          exact h2.symm

theorem dropLast_append_of_getLastSome {α : Type} (l : List α) (q : α)
    (h : l.getLast? = some q) : l.dropLast ++ [q] = l := by
  have hne : l ≠ [] := by rintro rfl; simp at h
  have h2 := List.dropLast_concat_getLast hne
  rw [List.getLast?_eq_getLast l hne] at h
  simp only [Option.some_inj] at h
  rw [h] at h2
  exact h2

/-- The shape invariant of a chain built by successful appends: every
non-last stage owns a framebuffer whose output texture was allocated with
that stage's own declared output size, and the last stage owns none. -/
def chainShape (l : List FilterPriv) : Prop :=
  (∀ p ∈ l.dropLast, p.has_framebuffer_out = true ∧
     p.fbTexWidth = p.size_out.width ∧ p.fbTexHeight = p.size_out.height) ∧
  (∀ q, l.getLast? = some q → q.has_framebuffer_out = false)

theorem append_preserves_chainShape (filters : GLFilters) (env : AppendEnv)
    (f2 : GLFilters) (h : vlc_gl_filters_Append filters env = (f2, true))
    (hs : chainShape filters.list) : chainShape f2.list := by
  obtain ⟨sizeOut, _, _, hcase⟩ := Append_success_inversion filters env f2 h
  rcases hcase with ⟨hnone, hf⟩ | ⟨prev, hlast, hfb, hf⟩
  · have hnil : filters.list = [] := List.getLast?_eq_none_iff.mp hnone
    subst hf
    constructor
    · intro p hp
      rw [List.dropLast_concat, hnil] at hp
      exact absurd hp (by simp)
    · intro q hq
      rw [List.getLast?_concat] at hq
      simp only [Option.some_inj] at hq
      rw [← hq]
      rfl
  · subst hf
    constructor
    · intro p hp
      rw [List.dropLast_concat] at hp
      rcases List.mem_append.mp hp with hp | hp
      · exact hs.1 p hp
      · simp only [List.mem_singleton] at hp
        subst hp
        rw [InitFramebufferOut_fst]
        exact ⟨rfl, rfl, rfl⟩
    · intro q hq
      rw [List.getLast?_concat] at hq
      simp only [Option.some_inj] at hq
      rw [← hq]
      rfl

theorem appendAll_chainShape (envs : List AppendEnv) :
    ∀ filters chain : GLFilters, chainShape filters.list →
      appendAll filters envs = some chain → chainShape chain.list := by
  induction envs with
  | nil =>
    intro filters chain hs h
    simp only [appendAll, Option.some_inj] at h
    rw [← h]
    exact hs
  | cons env rest ih =>
    intro filters chain hs h
    simp only [appendAll] at h
    cases hA : vlc_gl_filters_Append filters env with
    | mk f2 ok =>
      rw [hA] at h
      cases ok with
      | false => exact Option.noConfusion h
      | true =>
        exact ih f2 chain (append_preserves_chainShape filters env f2 hA hs) h

/-- The one-stage chain after one successful append of a stage with output
size 2 by 2 onto an empty chain with a 2 by 2 interop format. -/
def c6Chain1 : GLFilters := ⟨⟨2, 2⟩, [⟨⟨2, 2⟩, false, 0, 0, 0, 0⟩]⟩

/-- The environment of a second successful append: sampler ok, module
loads declaring output size 1 by 1, framebuffer complete, fresh GL names
5 and 6. -/
def c6Env2 : AppendEnv := ⟨true, some ⟨1, 1⟩, true, 5, 6⟩

/-- The two-stage chain after the second append: the first stage now owns
framebuffer 6 with texture 5 sized to its own 2 by 2 output, the new last
stage owns none. -/
def c6Chain2 : GLFilters :=
  ⟨⟨2, 2⟩, [⟨⟨2, 2⟩, true, 5, 6, 2, 2⟩, ⟨⟨1, 1⟩, false, 0, 0, 0, 0⟩]⟩

/-- C6: after any sequence of successful appends building a chain of K ≥ 1
stages from an initialized (empty) chain, every stage except the last owns
a render target whose texture was allocated with that stage's own declared
output size and the last stage owns none — so exactly one stage lacks an
owned render target; moreover each successful append onto a non-empty
chain gives the previously-last stage (now at position length-1 of the old
chain) an owned render target sized to its own declared output. -/
theorem C6_exactly_one_stage_without_target :
    (∀ (sz : TexSize) (envs : List AppendEnv) (chain : GLFilters),
       appendAll (vlc_gl_filters_Init sz) envs = some chain →
       (∀ p ∈ chain.list.dropLast, p.has_framebuffer_out = true ∧
          p.fbTexWidth = p.size_out.width ∧
          p.fbTexHeight = p.size_out.height) ∧
       (∀ q, chain.list.getLast? = some q → q.has_framebuffer_out = false) ∧
       (chain.list ≠ [] →
          chain.list.countP (fun p => !p.has_framebuffer_out) = 1)) ∧
    (∀ (filters : GLFilters) (env : AppendEnv) (f2 : GLFilters)
       (prev : FilterPriv),
       filters.list.getLast? = some prev →
       vlc_gl_filters_Append filters env = (f2, true) →
       f2.list[filters.list.length - 1]? =
         some ((InitFramebufferOut prev env).1) ∧
       ((InitFramebufferOut prev env).1).has_framebuffer_out = true ∧
       ((InitFramebufferOut prev env).1).fbTexWidth = prev.size_out.width ∧
       ((InitFramebufferOut prev env).1).fbTexHeight =
         prev.size_out.height) := by
  constructor
  · intro sz envs chain h
    have hshape : chainShape chain.list := by
      refine appendAll_chainShape envs (vlc_gl_filters_Init sz) chain ?_ h
      constructor
      · intro p hp
        exact absurd hp (by simp [vlc_gl_filters_Init])
      · intro q hq
        exact absurd hq (by simp [vlc_gl_filters_Init])
    refine ⟨hshape.1, hshape.2, ?_⟩
    intro hne
    cases hlast : chain.list.getLast? with
    | none => exact absurd (List.getLast?_eq_none_iff.mp hlast) hne
    | some q =>
      have hdecomp := dropLast_append_of_getLastSome chain.list q hlast
      rw [← hdecomp, List.countP_append]
      have h0 : chain.list.dropLast.countP (fun p => !p.has_framebuffer_out) = 0 := by
        refine List.countP_eq_zero.mpr ?_
        intro p hp
        rw [(hshape.1 p hp).1]
        simp
      have h1 : ([q] : List FilterPriv).countP (fun p => !p.has_framebuffer_out) = 1 := by
        have := hshape.2 q hlast
        simp [List.countP, List.countP.go, this]
      rw [h0, h1]
  · intro filters env f2 prev hlast hA
    obtain ⟨sizeOut, _, _, hcase⟩ := Append_success_inversion filters env f2 hA
    rcases hcase with ⟨hnone, _⟩ | ⟨prev2, hlast2, _, hf⟩
    · rw [hlast] at hnone
      exact Option.noConfusion hnone
    · rw [hlast] at hlast2
      simp only [Option.some_inj] at hlast2
      subst hlast2
      subst hf
      have hne : filters.list ≠ [] := by
        rintro hnil
        rw [hnil] at hlast
        simp at hlast
      have hlen : filters.list.dropLast.length = filters.list.length - 1 :=
        List.length_dropLast filters.list
      refine ⟨?_, ?_, ?_, ?_⟩
      · show (filters.list.dropLast ++ [(InitFramebufferOut prev env).1] ++
            [{ vlc_gl_filter_New with size_out := sizeOut }])[filters.list.length - 1]?
          = some ((InitFramebufferOut prev env).1)
        have hlt : filters.list.length - 1 <
            (filters.list.dropLast ++ [(InitFramebufferOut prev env).1]).length := by
          rw [List.length_append, hlen]
          simp
        rw [List.getElem?_append_left hlt,
          List.getElem?_append_right (by rw [hlen])]
        rw [hlen]
        simp
      · rw [InitFramebufferOut_fst]
      · rw [InitFramebufferOut_fst]
      · rw [InitFramebufferOut_fst]

/-- Witness for C6 at concrete inputs: appending a second stage onto the
one-stage chain `c6Chain1` leaves the first stage at position 0 with an
owned render target sized 2 by 2, its own declared output size. -/
theorem C6_exactly_one_stage_without_target_witness :
    c6Chain2.list[c6Chain1.list.length - 1]? =
      some ((InitFramebufferOut ⟨⟨2, 2⟩, false, 0, 0, 0, 0⟩ c6Env2).1) ∧
    ((InitFramebufferOut ⟨⟨2, 2⟩, false, 0, 0, 0, 0⟩ c6Env2).1).has_framebuffer_out = true ∧
    ((InitFramebufferOut ⟨⟨2, 2⟩, false, 0, 0, 0, 0⟩ c6Env2).1).fbTexWidth =
      (⟨⟨2, 2⟩, false, 0, 0, 0, 0⟩ : FilterPriv).size_out.width ∧
    ((InitFramebufferOut ⟨⟨2, 2⟩, false, 0, 0, 0, 0⟩ c6Env2).1).fbTexHeight =
      (⟨⟨2, 2⟩, false, 0, 0, 0, 0⟩ : FilterPriv).size_out.height :=
  C6_exactly_one_stage_without_target.2 c6Chain1 c6Env2 c6Chain2
    ⟨⟨2, 2⟩, false, 0, 0, 0, 0⟩ (by decide) (by decide)

/-- A one-stage chain whose single (terminal) stage does not yet own a
render target: the prior valid state for the C8 counterexample. -/
def c8Filters : GLFilters := ⟨⟨2, 2⟩, [⟨⟨2, 2⟩, false, 0, 0, 0, 0⟩]⟩

/-- An append environment that fails in the render-target setup: sampler
and module load succeed but CheckFramebufferStatus reports an incomplete
framebuffer inside InitFramebufferOut. -/
def c8Env : AppendEnv := ⟨true, some ⟨2, 2⟩, false, 5, 6⟩

/-- C8 counterexample: an append onto `c8Filters` that fails in
InitFramebufferOut (filters.c lines 140-145) leaves the chain CHANGED —
the pre-existing stage now has has_framebuffer_out = true although the
append failed and no stage was added — refuting the claim that a failed
append leaves the chain exactly in its prior valid state with the same
render-target ownership for every pre-existing stage. -/
theorem C8_counterexample :
    (vlc_gl_filters_Append c8Filters c8Env).2 = false ∧
    (vlc_gl_filters_Append c8Filters c8Env).1 ≠ c8Filters ∧
    Option.map FilterPriv.has_framebuffer_out c8Filters.list.getLast? =
      some false ∧
    Option.map FilterPriv.has_framebuffer_out
      (vlc_gl_filters_Append c8Filters c8Env).1.list.getLast? =
      some true := by
  decide

/-- C8 (amended): when an append fails because sampler creation fails or
the named implementation cannot be found or initialized (module load
failure), the chain is left exactly in its prior state and the new stage
is discarded; but when it fails in the render-target setup for the
previously-last stage, the new stage is discarded and the stage list keeps
its length, yet the previously-last stage is left mutated in place —
marked as owning a render target (has_framebuffer_out = true) with the
freshly allocated GL names — so its render-target ownership is not
restored. -/
theorem C8_failed_append_residue :
    (∀ (filters : GLFilters) (env : AppendEnv),
       env.samplerOk = false ∨ env.loadModule = none →
       vlc_gl_filters_Append filters env = (filters, false)) ∧
    (∀ (filters : GLFilters) (env : AppendEnv) (prev : FilterPriv)
       (sizeOut : TexSize),
       filters.list.getLast? = some prev →
       env.samplerOk = true → env.loadModule = some sizeOut →
       env.fbStatusOk = false →
       vlc_gl_filters_Append filters env =
         ({ filters with
              list := filters.list.dropLast ++
                [(InitFramebufferOut prev env).1] }, false) ∧
       ((InitFramebufferOut prev env).1).has_framebuffer_out = true) := by
  constructor
  · intro filters env hfail
    obtain ⟨samplerOk, loadModule, fbStatusOk, nt, nf⟩ := env
    rcases hfail with hs | hl
    · simp only at hs
      subst hs
      cases hlast : filters.list.getLast? <;>
        simp [vlc_gl_filters_Append, hlast]
    · simp only at hl
      subst hl
      cases samplerOk <;> cases hlast : filters.list.getLast? <;>
        simp [vlc_gl_filters_Append, hlast]
  · intro filters env prev sizeOut hlast hs hl hfb
    refine ⟨?_, by rw [InitFramebufferOut_fst]⟩
    obtain ⟨samplerOk, loadModule, fbStatusOk, nt, nf⟩ := env
    simp only at hs hl hfb
    subst hs
    subst hl
    subst hfb
    simp [vlc_gl_filters_Append, hlast, InitFramebufferOut_snd,
      VLC_SUCCESS, VLC_EGENERIC]

/-- Witness for C8 (amended) at concrete inputs: the failing append onto
`c8Filters` leaves a one-stage chain whose stage is marked as owning a
render target, while a sampler-failure append leaves the chain
untouched. -/
theorem C8_failed_append_residue_witness :
    (vlc_gl_filters_Append c8Filters c8Env =
       ({ c8Filters with
            list := c8Filters.list.dropLast ++
              [(InitFramebufferOut ⟨⟨2, 2⟩, false, 0, 0, 0, 0⟩ c8Env).1] },
        false) ∧
     ((InitFramebufferOut ⟨⟨2, 2⟩, false, 0, 0, 0, 0⟩ c8Env).1).has_framebuffer_out =
       true) ∧
    vlc_gl_filters_Append c8Filters ⟨false, some ⟨2, 2⟩, true, 0, 0⟩ =
      (c8Filters, false) :=
  ⟨C8_failed_append_residue.2 c8Filters c8Env ⟨⟨2, 2⟩, false, 0, 0, 0, 0⟩
     ⟨2, 2⟩ (by decide) rfl rfl rfl,
   C8_failed_append_residue.1 c8Filters ⟨false, some ⟨2, 2⟩, true, 0, 0⟩
     (Or.inl rfl)⟩

/-- vlc_gl_filters_UpdatePicture (filters.c lines 153-166): asserts that
the chain is non-empty (line 157) — on an empty chain the assertion fails
and no value is returned to the caller (with assertions disabled the NULL
first entry would be dereferenced), modelled by `none`; otherwise it
returns the result of vlc_gl_sampler_UpdatePicture on the first stage's
sampler, whose outcome the parameter `samplerUpdateResult` provides. -/
def vlc_gl_filters_UpdatePicture (filters : GLFilters)
    (samplerUpdateResult : Int) : Option Int :=
  match filters.list with
  | [] => none
  | _ :: _ => some samplerUpdateResult

/-- C9 counterexample: calling UpdatePicture on an empty chain does not
return an error code to the caller — it fails the non-emptiness assertion
(filters.c line 157) and delivers no result at all — so the claim that it
returns an EmptyChainError-style error is false on the empty chain. -/
theorem C9_counterexample :
    ¬ ∃ err, vlc_gl_filters_UpdatePicture (vlc_gl_filters_Init ⟨2, 2⟩) 0 =
        some err ∧ err ≠ VLC_SUCCESS := by
  rintro ⟨err, h, -⟩
  simp [vlc_gl_filters_UpdatePicture, vlc_gl_filters_Init] at h

/-- C9 (amended): on an empty chain UpdatePicture violates its assertion
and returns nothing to the caller — it neither delivers the frame nor
returns an error code; on a non-empty chain it delivers the frame to the
first stage's sampler and returns that result. -/
theorem C9_empty_chain_asserts :
    (∀ (sz : TexSize) (res : Int),
       vlc_gl_filters_UpdatePicture (vlc_gl_filters_Init sz) res = none) ∧
    (∀ (filters : GLFilters) (res : Int), filters.list ≠ [] →
       vlc_gl_filters_UpdatePicture filters res = some res) := by
  constructor
  · intro sz res
    rfl
  · intro filters res hne
    cases h : filters.list with
    | nil => exact absurd h hne
    | cons a t => simp [vlc_gl_filters_UpdatePicture, h]

/-- Witness for C9 (amended) at a concrete input: a one-stage chain
accepts the frame and returns the sampler result. -/
theorem C9_empty_chain_asserts_witness :
    vlc_gl_filters_UpdatePicture ⟨⟨2, 2⟩, [⟨⟨2, 2⟩, false, 0, 0, 0, 0⟩]⟩ 0 =
      some 0 :=
  C9_empty_chain_asserts.2 ⟨⟨2, 2⟩, [⟨⟨2, 2⟩, false, 0, 0, 0, 0⟩]⟩ 0
    (by decide)

/-- One operation performed by the draw pass of the filter chain
(filters.c lines 168-208): a sampler refresh from a texture with its size,
a read-framebuffer binding, a draw-framebuffer binding, or a stage's draw
invocation; stages are identified by their position in the chain. -/
inductive DrawEv where
  | updateSamplerTexture (stage : Nat) (tex : Nat) (w h : Nat)
  | bindRead (fb : Nat)
  | bindDraw (fb : Nat)
  | stageDraw (stage : Nat)
deriving DecidableEq, Repr

/-- The loop of vlc_gl_filters_Draw (filters.c lines 173-205), walking the
stage list while carrying the previous stage exactly as
vlc_list_prev_entry_or_null provides it.  `upd i` is the result of
vlc_gl_sampler_UpdateTexture for the stage at position i (line 185) and
`drw i` the result of that stage's draw operation (line 202); `idx` is the
position of the first stage of the remaining list.  Returns the first
non-success result together with the operations performed. -/
def drawLoop (upd drw : Nat → Int) :
    Option FilterPriv → Nat → List FilterPriv → Int × List DrawEv
  | _, _, [] => (VLC_SUCCESS, [])
  | none, idx, priv :: rest =>
    let evs := [DrawEv.bindRead 0,
                DrawEv.bindDraw
                  (if priv.has_framebuffer_out then priv.framebuffer_out else 0),
                DrawEv.stageDraw idx]
    if drw idx = VLC_SUCCESS then
      let r := drawLoop upd drw (some priv) (idx + 1) rest
      (r.1, evs ++ r.2)
    else (drw idx, evs)
  | some prev, idx, priv :: rest =>
    let evUpd := DrawEv.updateSamplerTexture idx prev.texture_out
      prev.size_out.width prev.size_out.height
    if upd idx = VLC_SUCCESS then
      let evs := [evUpd,
                  DrawEv.bindRead prev.framebuffer_out,
                  DrawEv.bindDraw
                    (if priv.has_framebuffer_out then priv.framebuffer_out else 0),
                  DrawEv.stageDraw idx]
      if drw idx = VLC_SUCCESS then
        let r := drawLoop upd drw (some priv) (idx + 1) rest
        (r.1, evs ++ r.2)
      else (drw idx, evs)
    else (upd idx, [evUpd])

/-- vlc_gl_filters_Draw (filters.c lines 168-208), as a function of the
chain and of the outcomes of the per-stage external calls. -/
def vlc_gl_filters_Draw (filters : GLFilters) (upd drw : Nat → Int) :
    Int × List DrawEv :=
  drawLoop upd drw none 0 filters.list

/-- One stage's step of the draw pass as claim C7 describes it, looking up
the immediately preceding stage positionally: for a non-first stage, first
the sampler refresh from the preceding stage's output texture and declared
size (failing with that error and executing nothing further for this
stage), then the read binding of the preceding stage's framebuffer (the
shared default framebuffer 0 for the first stage), the draw binding of the
stage's own framebuffer (0 for the terminal stage, which owns none), and
the stage's draw operation, whose result is returned. -/
def drawClaimStage (upd drw : Nat → Int) (stages : List FilterPriv)
    (i : Nat) : Int × List DrawEv :=
  let priv := stages.getD i default
  if i = 0 then
    (drw i,
     [DrawEv.bindRead 0,
      DrawEv.bindDraw
        (if priv.has_framebuffer_out then priv.framebuffer_out else 0),
      DrawEv.stageDraw i])
  else
    let prev := stages.getD (i - 1) default
    if upd i = VLC_SUCCESS then
      (drw i,
       [DrawEv.updateSamplerTexture i prev.texture_out
          prev.size_out.width prev.size_out.height,
        DrawEv.bindRead prev.framebuffer_out,
        DrawEv.bindDraw
          (if priv.has_framebuffer_out then priv.framebuffer_out else 0),
        DrawEv.stageDraw i])
    else
      (upd i,
       [DrawEv.updateSamplerTexture i prev.texture_out
          prev.size_out.width prev.size_out.height])

/-- The draw pass as claim C7 describes it: execute the stages in chain
order from position i on (`count` stages remain), stopping at the first
failure, whose error is returned with no subsequent stage executed. -/
def drawClaimFrom (upd drw : Nat → Int) (stages : List FilterPriv) :
    Nat → Nat → Int × List DrawEv
  | 0, _ => (VLC_SUCCESS, [])
  | count + 1, i =>
    let st := drawClaimStage upd drw stages i
    if st.1 = VLC_SUCCESS then
      let r := drawClaimFrom upd drw stages count (i + 1)
      (r.1, st.2 ++ r.2)
    else st

/-- The whole draw pass in the positional description of claim C7. -/
def drawClaim (filters : GLFilters) (upd drw : Nat → Int) :
    Int × List DrawEv :=
  drawClaimFrom upd drw filters.list filters.list.length 0

theorem drawLoop_eq_drawClaimFrom (upd drw : Nat → Int)
    (full : List FilterPriv) (rest : List FilterPriv) :
    ∀ i : Nat, full.drop i = rest →
      drawLoop upd drw
        (if i = 0 then none else some (full.getD (i - 1) default)) i rest =
      drawClaimFrom upd drw full rest.length i := by
  induction rest with
  | nil =>
    intro i hdrop
    by_cases hi : i = 0
    · rw [if_pos hi]
      rfl
    · rw [if_neg hi]
      rfl
  | cons priv rest2 ih =>
    intro i hdrop
    have hgetq : full[i]? = some priv := by
      have h2 := List.getElem?_drop full i 0
      rw [hdrop] at h2
      simpa using h2.symm
    have hget : full.getD i default = priv := by
      rw [List.getD_eq_getElem?_getD, hgetq]
      rfl
    have hdrop2 : full.drop (i + 1) = rest2 := by
      rw [← List.tail_drop, hdrop]
      rfl
    have hih := ih (i + 1) hdrop2
    rw [if_neg (Nat.succ_ne_zero i)] at hih
    simp only [Nat.add_sub_cancel] at hih
    rw [hget] at hih
    by_cases hi : i = 0
    · subst hi
      rw [if_pos rfl]
      by_cases hd : drw 0 = VLC_SUCCESS <;>
        simp [drawLoop, drawClaimFrom, drawClaimStage, hget, hgetq, hd, hih]
    · rw [if_neg hi]
      by_cases hu : upd i = VLC_SUCCESS
      · by_cases hd : drw i = VLC_SUCCESS <;>
          simp [drawLoop, drawClaimFrom, drawClaimStage, hget, hgetq, hi, hu,
            hd, hih]
      · simp [drawLoop, drawClaimFrom, drawClaimStage, hget, hgetq, hi, hu]

/-- C7: vlc_gl_filters_Draw executes the stages in chain order and is
extensionally equal to the positional description of claim C7
(`drawClaim`): for each non-first stage it first refreshes that stage's
sampler from the immediately preceding stage's output texture and declared
size, binds the preceding stage's framebuffer for reading and the stage's
own framebuffer (or the shared default framebuffer 0, for the terminal
stage) for drawing, then invokes the stage's draw operation; it returns
the first failure and executes no subsequent stage after it. -/
theorem C7_draw_chain_order :
    ∀ (filters : GLFilters) (upd drw : Nat → Int),
      vlc_gl_filters_Draw filters upd drw = drawClaim filters upd drw := by
  intro filters upd drw
  unfold vlc_gl_filters_Draw drawClaim
  have h := drawLoop_eq_drawClaimFrom upd drw filters.list filters.list 0 rfl
  rw [if_pos rfl] at h
  exact h

/-- LoadFilters (egl_pbuffer.c lines 379-414).  Modelled from the spec:
config_ChainCreate (the VLC core configuration-chain parser, not among the
provided sources) splits the configuration string into successive
segments, each yielding an optional module name (`none` when the segment
produces no name, e.g. an empty entry between delimiters) and its option
sub-list, together with the leftover string; the do-while loop consumes
the segments left to right until the leftover is NULL.  The stage
construction vlc_gl_filters_Append is abstracted by its success
`loadOk name`.  Returns the result code and the names successfully
appended, in order: a nameless segment is skipped (lines 397-410 guard on
`name`), a named segment is appended, and a failed load aborts with
VLC_EGENERIC (lines 402-407). -/
def LoadFilters (loadOk : String → Bool) :
    List (Option String) → Int × List String
  | [] => (VLC_SUCCESS, [])
  | none :: rest => LoadFilters loadOk rest
  | some name :: rest =>
    if loadOk name then
      let r := LoadFilters loadOk rest
      (r.1, name :: r.2)
    else (VLC_EGENERIC, [])

/-- C10: LoadFilters skips a segment that yields no filter name without
error and continues with the remaining segments; exactly one stage is
appended per named segment, in configuration-string order; and setup
fails only when a named filter cannot be loaded — the result is
VLC_SUCCESS with every name appended in order when all named segments
load, and VLC_EGENERIC with exactly the names before the first failing
one appended otherwise. -/
theorem C10_load_skips_unnamed_segments :
    (∀ (loadOk : String → Bool) (rest : List (Option String)),
       LoadFilters loadOk (none :: rest) = LoadFilters loadOk rest) ∧
    (∀ (loadOk : String → Bool) (segs : List (Option String)),
       LoadFilters loadOk segs =
         ((if (segs.filterMap id).all loadOk then VLC_SUCCESS
           else VLC_EGENERIC),
          (segs.filterMap id).takeWhile loadOk)) := by
  refine ⟨fun loadOk rest => rfl, ?_⟩
  intro loadOk segs
  induction segs with
  | nil => rfl
  | cons seg rest ih =>
    cases seg with
    | none => simpa using ih
    | some name =>
      by_cases h : loadOk name
      · simp [LoadFilters, h, ih]
      · simp [LoadFilters, h]
